import Mathlib

/-!
# Verification of the Elite Player Tracker stats core (`src/server.js`)

Shallow embedding of the stats normalization and ranking pipeline:
the season resolver `getNBASeason`, the composite-score function `calcEPT`,
and the per-row projection / sort / truncation performed in `getSeasonStats`.

Modelling conventions:
* JS numbers are modelled as rationals (`ℚ`); `x.toFixed(1)` followed by
  unary `+` is modelled as exact decimal rounding `round1` (nearest multiple
  of 1/10, ties toward the larger value, as the ECMAScript `toFixed` spec
  prescribes).
* A table cell is a `Val`: JS `undefined`, `null`, a number, or a string.
  The nullish-coalescing default `v ?? 0` and numeric use of a cell are
  modelled by `Val.toNum` / `nullishOr`; numeric coercion of non-numeric
  strings is not modelled (no claim involves string-valued numeric cells).
* `Array.prototype.sort` with the comparator `(a, b) => b.ept - a.ept` is a
  stable sort placing `a` no later than `b` iff `b.ept ≤ a.ept`; it is
  modelled by `List.mergeSort` with that relation, which is stable.
* The wall-clock date consumed by `getNBASeason` is passed explicitly as a
  year and a zero-based month index (`Fin 12`), exactly what
  `Date.prototype.getFullYear` / `getMonth` return.
-/

namespace EliteTracker

/-- Exact model of `+(x).toFixed(1)` on a real value: round to the nearest
multiple of 1/10, ties toward the larger value. -/
def round1 (x : ℚ) : ℚ := (⌊x * 10 + 1 / 2⌋ : ℚ) / 10

/-- A JavaScript cell value as it occurs in the `rowSet` arrays. -/
inductive Val where
  | undef : Val
  | null : Val
  | num : ℚ → Val
  | str : String → Val
deriving DecidableEq

/-- JS nullish test: `undefined` and `null` are nullish, nothing else is. -/
def Val.isNullish : Val → Bool
  | .undef => true
  | .null => true
  | _ => false

/-- Numeric reading of a cell: a number is itself, `undefined`/`null` read
as 0 (they only reach numeric position through `?? 0`); string cells in
numeric position are not modelled and read as 0. -/
def Val.toNum : Val → ℚ
  | .num q => q
  | _ => 0

/-- `v ?? d` in numeric position: the cell's number unless the cell is
nullish, in which case the default. -/
def nullishOr (v : Val) (d : ℚ) : ℚ := if v.isNullish then d else v.toNum

/-- `r[idx[h]]` — `undefined` when the header is absent from the index
(indexing with `undefined`) or the column number is out of range. -/
def getVal (idx : String → Option Nat) (r : List Val) (h : String) : Val :=
  match idx h with
  | none => Val.undef
  | some i => (r[i]?).getD Val.undef

/-- `const idx = {}; headers.forEach((h, i) => (idx[h] = i));`
Left-to-right assignment into an object: a later occurrence of the same
header name overwrites an earlier one. -/
def buildIdx (headers : List String) : String → Option Nat :=
  headers.enum.foldl (fun m p => fun k => if k = p.2 then some p.1 else m k)
    (fun _ => none)

/-- `calcEPT` from `server.js` lines 54–56: single left-to-right
accumulation over the season totals, then `+(...).toFixed(1)`. -/
def calcEPT (pts reb ast stl blk tov : ℚ) : ℚ :=
  round1 (pts * 1.5 + reb * 1.5 + ast * 1.5 + stl * 3 + blk * 3 - tov * 1.5)

/-- One projected player record, with the field names of the object literal
built in `getSeasonStats` (lines 94–117). -/
structure Player where
  name : Val
  team : Val
  gp : ℚ
  pts : ℚ
  reb : ℚ
  ast : ℚ
  stl : ℚ
  blk : ℚ
  tov : ℚ
  fgm : ℚ
  fga : ℚ
  fg3m : ℚ
  fg3a : ℚ
  ftm : ℚ
  fta : ℚ
  fgPct : ℚ
  ftPct : ℚ
  tpPct : ℚ
  ppg : ℚ
  rpg : ℚ
  apg : ℚ
  spg : ℚ
  bpg : ℚ
  topg : ℚ
  ept : ℚ
deriving DecidableEq

/-- The body of `rows.map((r) => { ... })` in `getSeasonStats`
(lines 76–118): project one row through the header index, defaulting
missing/nullish numeric cells to 0, deriving shooting percentages,
per-game rates and the EPT score. -/
def projectRow (idx : String → Option Nat) (r : List Val) : Player :=
  let gp := nullishOr (getVal idx r "GP") 0
  let pts := nullishOr (getVal idx r "PTS") 0
  let reb := nullishOr (getVal idx r "REB") 0
  let ast := nullishOr (getVal idx r "AST") 0
  let stl := nullishOr (getVal idx r "STL") 0
  let blk := nullishOr (getVal idx r "BLK") 0
  let tov := nullishOr (getVal idx r "TOV") 0
  let fgm := nullishOr (getVal idx r "FGM") 0
  let fga := nullishOr (getVal idx r "FGA") 0
  let fg3m := nullishOr (getVal idx r "FG3M") 0
  let fg3a := nullishOr (getVal idx r "FG3A") 0
  let ftm := nullishOr (getVal idx r "FTM") 0
  let fta := nullishOr (getVal idx r "FTA") 0
  let fgPct := if (getVal idx r "FG_PCT").isNullish
    then (if fga ≠ 0 then fgm / fga else 0)
    else (getVal idx r "FG_PCT").toNum
  let ftPct := if (getVal idx r "FT_PCT").isNullish
    then (if fta ≠ 0 then ftm / fta else 0)
    else (getVal idx r "FT_PCT").toNum
  let tpPct := if (getVal idx r "FG3_PCT").isNullish
    then (if fg3a ≠ 0 then fg3m / fg3a else 0)
    else (getVal idx r "FG3_PCT").toNum
  { name := getVal idx r "PLAYER"
    team := getVal idx r "TEAM"
    gp := gp
    pts := pts
    reb := reb
    ast := ast
    stl := stl
    blk := blk
    tov := tov
    fgm := fgm
    fga := fga
    fg3m := fg3m
    fg3a := fg3a
    ftm := ftm
    fta := fta
    fgPct := round1 (fgPct * 100)
    ftPct := round1 (ftPct * 100)
    tpPct := round1 (tpPct * 100)
    ppg := if gp ≠ 0 then round1 (pts / gp) else 0
    rpg := if gp ≠ 0 then round1 (reb / gp) else 0
    apg := if gp ≠ 0 then round1 (ast / gp) else 0
    spg := if gp ≠ 0 then round1 (stl / gp) else 0
    bpg := if gp ≠ 0 then round1 (blk / gp) else 0
    topg := if gp ≠ 0 then round1 (tov / gp) else 0
    ept := calcEPT pts reb ast stl blk tov }

/-- `players.sort((a, b) => b.ept - a.ept)`: a stable sort places `a`
no later than `b` exactly when the comparator is ≤ 0, i.e. `b.ept ≤ a.ept`. -/
def eptDesc (a b : Player) : Bool := decide (b.ept ≤ a.ept)

/-- Lines 76–126 of `getSeasonStats`: project all rows, sort by EPT
descending (stably), keep the first 25. -/
def rankPlayers (headers : List String) (rows : List (List Val)) : List Player :=
  ((rows.map (projectRow (buildIdx headers))).mergeSort eptDesc).take 25

/-- `data.resultSet` with its two optional components, as accessed on
lines 68–69 (`data.resultSet.headers`, `data.resultSet.rowSet`). -/
structure ResultSet where
  headers : Option (List String)
  rowSet : Option (List (List Val))

/-- The upstream JSON payload; `resultSet` itself may be absent. -/
structure Payload where
  resultSet : Option ResultSet

/-- The only error kind the core can signal: the spec's
`MalformedInputError`, raised when the table container is structurally
absent (in the JS source this is the TypeError thrown by accessing
`.headers` / `.rowSet` / mapping over them). -/
inductive CoreError where
  | malformedInput : CoreError
deriving DecidableEq

/-- The result envelope (`players`, `season`); the wall-clock
`updatedAt` timestamp is I/O and not modelled. -/
structure RankedResult where
  players : List Player
  season : String

/-- The pure core of `getSeasonStats` (spec §4.2 `normalizeAndRank`): fail
with `MalformedInputError` when the table container is structurally
absent, otherwise project, rank and truncate. The season label is passed
in (it is computed by `getNBASeason` from the wall clock). -/
def normalizeAndRank (season : String) (p : Payload) :
    Except CoreError RankedResult :=
  match p.resultSet with
  | none => Except.error CoreError.malformedInput
  | some rs =>
    match rs.headers, rs.rowSet with
    | some headers, some rows =>
      Except.ok { players := rankPlayers headers rows, season := season }
    | _, _ => Except.error CoreError.malformedInput

/-- `"0"`-padding of `String(n)` to width 2 (`String.prototype.padStart(2, "0")`). -/
def padStart2 (s : String) : String :=
  if s.length ≥ 2 then s else if s.length = 1 then "0" ++ s else "00"

/-- `getNBASeason` from `server.js` lines 44–51, with the wall-clock date
passed explicitly: `year = now.getFullYear()`, `month = now.getMonth()`
(zero-based, so October is index 9). -/
def getNBASeason (year : ℤ) (month : Fin 12) : String :=
  let startYear := if 9 ≤ (month : ℕ) then year else year - 1
  let endYear := (startYear + 1) % 100
  toString startYear ++ "-" ++ padStart2 (toString endYear)

/-! ## Helper lemmas -/

/-- The sort comparator relation is transitive. -/
theorem eptDesc_trans : ∀ a b d : Player, eptDesc a b = true → eptDesc b d = true →
    eptDesc a d = true := by
  intro a b d h1 h2
  simp only [eptDesc, decide_eq_true_eq] at *
  exact le_trans h2 h1

/-- The sort comparator relation is total. -/
theorem eptDesc_total : ∀ a b : Player, (eptDesc a b || eptDesc b a) = true := by
  intro a b
  simp only [eptDesc, Bool.or_eq_true, decide_eq_true_eq]
  exact le_total b.ept a.ept

/-- Appending one header to the index: the new header's position wins over
any earlier occurrence, every other name resolves as before. -/
theorem buildIdx_concat (hs : List String) (h : String) :
    buildIdx (hs ++ [h]) = fun k => if k = h then some hs.length else buildIdx hs k := by
  simp [buildIdx, List.enum_append, List.foldl_append, List.enumFrom]

/-- Stability of the ranking for any EPT equivalence class: filtering the
truncated sorted list by a class of tied players yields the start of the
input-order list of that class. -/
theorem stable_take_filter (players : List Player) (q : Player → Bool)
    (hpw : (players.filter q).Pairwise (fun a b => eptDesc a b = true)) :
    ((players.mergeSort eptDesc).take 25).filter q <+: players.filter q := by
  have hsub : (players.filter q).Sublist (players.mergeSort eptDesc) :=
    List.sublist_mergeSort eptDesc_trans eptDesc_total hpw (List.filter_sublist players)
  have hsub2 : (players.filter q).Sublist ((players.mergeSort eptDesc).filter q) := by
    simpa [List.filter_filter] using hsub.filter q
  have hlen : ((players.mergeSort eptDesc).filter q).length = (players.filter q).length :=
    ((List.mergeSort_perm players eptDesc).filter q).length_eq
  have heq : (players.mergeSort eptDesc).filter q = players.filter q :=
    (hsub2.eq_of_length hlen.symm).symm
  refine ⟨((players.mergeSort eptDesc).drop 25).filter q, ?_⟩
  rw [← List.filter_append, List.take_append_drop, heq]

/-! ## Claims -/

/-- Claim C1: every projected record's `ept` equals
`round1(pts*1.5 + reb*1.5 + ast*1.5 + stl*3 + blk*3 - tov*1.5)` over the
record's season totals (single left-to-right accumulation, as written in
`calcEPT`); and on the concrete table with headers
`["PLAYER","TEAM","GP","PTS","REB","AST","STL","BLK","TOV"]` and row
`["A","X",2,20,10,6,4,2,4]` the record has `ept = 66.0`, `ppg = 10.0`,
`rpg = 5.0`, `apg = 3.0`, `spg = 2.0`, `bpg = 1.0`, `topg = 2.0`. -/
theorem c1_ept_from_totals_and_example :
    (∀ (idx : String → Option Nat) (r : List Val),
      (projectRow idx r).ept =
        round1 ((projectRow idx r).pts * 1.5 + (projectRow idx r).reb * 1.5 +
          (projectRow idx r).ast * 1.5 + (projectRow idx r).stl * 3 +
          (projectRow idx r).blk * 3 - (projectRow idx r).tov * 1.5)) ∧
    (let hs := ["PLAYER", "TEAM", "GP", "PTS", "REB", "AST", "STL", "BLK", "TOV"]
     let row := [Val.str "A", Val.str "X", Val.num 2, Val.num 20, Val.num 10,
                 Val.num 6, Val.num 4, Val.num 2, Val.num 4]
     (projectRow (buildIdx hs) row).ept = 66 ∧
     (projectRow (buildIdx hs) row).ppg = 10 ∧
     (projectRow (buildIdx hs) row).rpg = 5 ∧
     (projectRow (buildIdx hs) row).apg = 3 ∧
     (projectRow (buildIdx hs) row).spg = 2 ∧
     (projectRow (buildIdx hs) row).bpg = 1 ∧
     (projectRow (buildIdx hs) row).topg = 2) := by
  constructor
  · intro idx r
    rfl
  · refine ⟨?_, ?_, ?_, ?_, ?_, ?_, ?_⟩
    · have h : (projectRow
          (buildIdx ["PLAYER", "TEAM", "GP", "PTS", "REB", "AST", "STL", "BLK", "TOV"])
          [Val.str "A", Val.str "X", Val.num 2, Val.num 20, Val.num 10,
           Val.num 6, Val.num 4, Val.num 2, Val.num 4]).ept =
          calcEPT 20 10 6 4 2 4 := rfl
      rw [h]; norm_num [calcEPT, round1]
    · have h : (projectRow
          (buildIdx ["PLAYER", "TEAM", "GP", "PTS", "REB", "AST", "STL", "BLK", "TOV"])
          [Val.str "A", Val.str "X", Val.num 2, Val.num 20, Val.num 10,
           Val.num 6, Val.num 4, Val.num 2, Val.num 4]).ppg =
          (if (2 : ℚ) ≠ 0 then round1 (20 / 2) else 0) := rfl
      rw [h]; norm_num [round1]
    · have h : (projectRow
          (buildIdx ["PLAYER", "TEAM", "GP", "PTS", "REB", "AST", "STL", "BLK", "TOV"])
          [Val.str "A", Val.str "X", Val.num 2, Val.num 20, Val.num 10,
           Val.num 6, Val.num 4, Val.num 2, Val.num 4]).rpg =
          (if (2 : ℚ) ≠ 0 then round1 (10 / 2) else 0) := rfl
      rw [h]; norm_num [round1]
    · have h : (projectRow
          (buildIdx ["PLAYER", "TEAM", "GP", "PTS", "REB", "AST", "STL", "BLK", "TOV"])
          [Val.str "A", Val.str "X", Val.num 2, Val.num 20, Val.num 10,
           Val.num 6, Val.num 4, Val.num 2, Val.num 4]).apg =
          (if (2 : ℚ) ≠ 0 then round1 (6 / 2) else 0) := rfl
      rw [h]; norm_num [round1]
    · have h : (projectRow
          (buildIdx ["PLAYER", "TEAM", "GP", "PTS", "REB", "AST", "STL", "BLK", "TOV"])
          [Val.str "A", Val.str "X", Val.num 2, Val.num 20, Val.num 10,
           Val.num 6, Val.num 4, Val.num 2, Val.num 4]).spg =
          (if (2 : ℚ) ≠ 0 then round1 (4 / 2) else 0) := rfl
      rw [h]; norm_num [round1]
    · have h : (projectRow
          (buildIdx ["PLAYER", "TEAM", "GP", "PTS", "REB", "AST", "STL", "BLK", "TOV"])
          [Val.str "A", Val.str "X", Val.num 2, Val.num 20, Val.num 10,
           Val.num 6, Val.num 4, Val.num 2, Val.num 4]).bpg =
          (if (2 : ℚ) ≠ 0 then round1 (2 / 2) else 0) := rfl
      rw [h]; norm_num [round1]
    · have h : (projectRow
          (buildIdx ["PLAYER", "TEAM", "GP", "PTS", "REB", "AST", "STL", "BLK", "TOV"])
          [Val.str "A", Val.str "X", Val.num 2, Val.num 20, Val.num 10,
           Val.num 6, Val.num 4, Val.num 2, Val.num 4]).topg =
          (if (2 : ℚ) ≠ 0 then round1 (4 / 2) else 0) := rfl
      rw [h]; norm_num [round1]

/-- Claim C2: the core signals `MalformedInputError` exactly when the table
container is structurally absent (`resultSet`, its headers sequence or its
rows sequence missing) — no partial result — and no other error kind
originates in the core. -/
theorem c2_malformed_input_error (season : String) (p : Payload) :
    (normalizeAndRank season p = Except.error CoreError.malformedInput ↔
      p.resultSet = none ∨
        ∃ rs, p.resultSet = some rs ∧ (rs.headers = none ∨ rs.rowSet = none)) ∧
    (∀ e, normalizeAndRank season p = Except.error e → e = CoreError.malformedInput) := by
  constructor
  · obtain ⟨_ | ⟨⟨_ | headers, _ | rows⟩⟩⟩ := p <;>
      simp [normalizeAndRank]
  · intro e _
    cases e
    rfl

/-- Witness for C2: a payload with no `resultSet` yields `MalformedInputError`. -/
theorem c2_malformed_input_error_witness :
    normalizeAndRank "2025-26" { resultSet := none } =
      Except.error CoreError.malformedInput :=
  (c2_malformed_input_error "2025-26" { resultSet := none }).1.mpr (Or.inl rfl)

/-- Claim C3: for every date the season resolver returns
`startYear ++ "-" ++ pad2((startYear + 1) mod 100)` where `startYear` is
the current year when the month is October (zero-based index 9) or later
and the previous year otherwise; November 2025, March 2026 and September
2026 all yield `"2025-26"`, October 2026 yields `"2026-27"`, and a start
year of 2099 (e.g. December 2099) yields end label `"00"`. -/
theorem c3_season_label :
    (∀ (year : ℤ) (month : Fin 12),
      getNBASeason year month =
        (let startYear := if 9 ≤ (month : ℕ) then year else year - 1
         toString startYear ++ "-" ++ padStart2 (toString ((startYear + 1) % 100)))) ∧
    getNBASeason 2025 10 = "2025-26" ∧
    getNBASeason 2026 2 = "2025-26" ∧
    getNBASeason 2026 8 = "2025-26" ∧
    getNBASeason 2026 9 = "2026-27" ∧
    getNBASeason 2099 11 = "2099-00" := by
  refine ⟨fun year month => rfl, ?_, ?_, ?_, ?_, ?_⟩ <;> decide

/-- Claim C4: for every table, the returned players sequence is sorted
non-increasing by `ept`: each record's `ept` is ≥ every later record's. -/
theorem c4_sorted_by_ept_desc (headers : List String) (rows : List (List Val)) :
    (rankPlayers headers rows).Pairwise (fun a b => b.ept ≤ a.ept) := by
  have hsorted := List.sorted_mergeSort eptDesc_trans eptDesc_total
    (rows.map (projectRow (buildIdx headers)))
  exact (hsorted.sublist (List.take_sublist 25 _)).imp
    (fun h => by simpa [eptDesc] using h)

/-- Claim C5: for every table with N rows, normalization returns exactly
`min(N, 25)` records — truncation to the first 25 after sorting, all of
them when fewer than 25 exist, never padding or erroring. -/
theorem c5_top25_length (headers : List String) (rows : List (List Val)) :
    (rankPlayers headers rows).length = min rows.length 25 := by
  have hlen := (List.mergeSort_perm (rows.map (projectRow (buildIdx headers))) eptDesc).length_eq
  simp only [rankPlayers, List.length_take, hlen, List.length_map]
  omega

/-- Claim C6: when a row's `gp` is 0, all six per-game rates are 0
regardless of the totals (the division never raises — the projection is a
total function); when `gp > 0` each rate is the total divided by `gp`,
rounded to 1 decimal. -/
theorem c6_per_game_rates (idx : String → Option Nat) (r : List Val) :
    ((projectRow idx r).gp = 0 →
      (projectRow idx r).ppg = 0 ∧ (projectRow idx r).rpg = 0 ∧
      (projectRow idx r).apg = 0 ∧ (projectRow idx r).spg = 0 ∧
      (projectRow idx r).bpg = 0 ∧ (projectRow idx r).topg = 0) ∧
    (0 < (projectRow idx r).gp →
      (projectRow idx r).ppg = round1 ((projectRow idx r).pts / (projectRow idx r).gp) ∧
      (projectRow idx r).rpg = round1 ((projectRow idx r).reb / (projectRow idx r).gp) ∧
      (projectRow idx r).apg = round1 ((projectRow idx r).ast / (projectRow idx r).gp) ∧
      (projectRow idx r).spg = round1 ((projectRow idx r).stl / (projectRow idx r).gp) ∧
      (projectRow idx r).bpg = round1 ((projectRow idx r).blk / (projectRow idx r).gp) ∧
      (projectRow idx r).topg = round1 ((projectRow idx r).tov / (projectRow idx r).gp)) := by
  constructor
  · intro h
    simp only [projectRow] at h ⊢
    simp [h]
  · intro h
    simp only [projectRow] at h ⊢
    simp [h.ne']

/-- Witness for C6: a row with `gp = 0` (here: absent) has all rates 0; a
row with `gp = 2` has `ppg = round1(pts / gp)`. -/
theorem c6_per_game_rates_witness :
    ((projectRow (fun _ => none) []).ppg = 0 ∧ (projectRow (fun _ => none) []).rpg = 0 ∧
     (projectRow (fun _ => none) []).apg = 0 ∧ (projectRow (fun _ => none) []).spg = 0 ∧
     (projectRow (fun _ => none) []).bpg = 0 ∧ (projectRow (fun _ => none) []).topg = 0) ∧
    (projectRow (fun s => if s = "GP" then some 0 else none) [Val.num 2]).ppg =
      round1 ((projectRow (fun s => if s = "GP" then some 0 else none) [Val.num 2]).pts /
        (projectRow (fun s => if s = "GP" then some 0 else none) [Val.num 2]).gp) :=
  ⟨(c6_per_game_rates (fun _ => none) []).1 rfl,
   ((c6_per_game_rates (fun s => if s = "GP" then some 0 else none) [Val.num 2]).2 (by
      have h : (projectRow (fun s => if s = "GP" then some 0 else none) [Val.num 2]).gp = 2 := rfl
      rw [h]; norm_num)).1⟩

/-- Claim C7: for each of the three shooting percentages, an explicit
present non-null percentage column is used as-is, otherwise the value is
derived as made/attempted with 0 on a zero denominator; the stored field
is the chosen value ×100 rounded to 1 decimal. In particular a row with
`fga = 0` and no percentage column has `fgPct = 0`. -/
theorem c7_percentage_derivation (idx : String → Option Nat) (r : List Val) :
    (((getVal idx r "FG_PCT").isNullish = false →
        (projectRow idx r).fgPct = round1 ((getVal idx r "FG_PCT").toNum * 100)) ∧
      ((getVal idx r "FG_PCT").isNullish = true →
        (projectRow idx r).fgPct =
          round1 ((if (projectRow idx r).fga ≠ 0 then
            (projectRow idx r).fgm / (projectRow idx r).fga else 0) * 100))) ∧
    (((getVal idx r "FT_PCT").isNullish = false →
        (projectRow idx r).ftPct = round1 ((getVal idx r "FT_PCT").toNum * 100)) ∧
      ((getVal idx r "FT_PCT").isNullish = true →
        (projectRow idx r).ftPct =
          round1 ((if (projectRow idx r).fta ≠ 0 then
            (projectRow idx r).ftm / (projectRow idx r).fta else 0) * 100))) ∧
    (((getVal idx r "FG3_PCT").isNullish = false →
        (projectRow idx r).tpPct = round1 ((getVal idx r "FG3_PCT").toNum * 100)) ∧
      ((getVal idx r "FG3_PCT").isNullish = true →
        (projectRow idx r).tpPct =
          round1 ((if (projectRow idx r).fg3a ≠ 0 then
            (projectRow idx r).fg3m / (projectRow idx r).fg3a else 0) * 100))) ∧
    ((projectRow (fun _ => none) []).fga = 0 ∧ (projectRow (fun _ => none) []).fgPct = 0) := by
  refine ⟨⟨?_, ?_⟩, ⟨?_, ?_⟩, ⟨?_, ?_⟩, rfl, ?_⟩ <;>
    first
    | (intro h; simp only [projectRow]; simp [h])
    | (have h : (projectRow (fun _ => none) []).fgPct = round1 (0 * 100) := rfl
       rw [h]; norm_num [round1])

/-- Witness for C7: a present `FG_PCT` cell (0.5) is used as-is; with no
percentage column the derived made/attempted branch is taken. -/
theorem c7_percentage_derivation_witness :
    (projectRow (fun s => if s = "FG_PCT" then some 0 else none) [Val.num (1 / 2)]).fgPct =
      round1 ((getVal (fun s => if s = "FG_PCT" then some 0 else none) [Val.num (1 / 2)]
        "FG_PCT").toNum * 100) ∧
    (projectRow (fun _ => none) []).fgPct =
      round1 ((if (projectRow (fun _ => none) []).fga ≠ 0 then
        (projectRow (fun _ => none) []).fgm / (projectRow (fun _ => none) []).fga else 0)
        * 100) :=
  ⟨((c7_percentage_derivation (fun s => if s = "FG_PCT" then some 0 else none)
      [Val.num (1 / 2)]).1).1 rfl,
   ((c7_percentage_derivation (fun _ => none) []).1).2 rfl⟩

/-- Claim C8: `ept` depends only on the six totals — two rows projecting to
identical `pts`, `reb`, `ast`, `stl`, `blk`, `tov` produce identical
`ept`, whatever their `gp` (or any other column) is. -/
theorem c8_ept_independent_of_gp (idx1 idx2 : String → Option Nat) (r1 r2 : List Val)
    (hpts : (projectRow idx1 r1).pts = (projectRow idx2 r2).pts)
    (hreb : (projectRow idx1 r1).reb = (projectRow idx2 r2).reb)
    (hast : (projectRow idx1 r1).ast = (projectRow idx2 r2).ast)
    (hstl : (projectRow idx1 r1).stl = (projectRow idx2 r2).stl)
    (hblk : (projectRow idx1 r1).blk = (projectRow idx2 r2).blk)
    (htov : (projectRow idx1 r1).tov = (projectRow idx2 r2).tov) :
    (projectRow idx1 r1).ept = (projectRow idx2 r2).ept := by
  have h1 : ∀ idx r, (projectRow idx r).ept =
      calcEPT (projectRow idx r).pts (projectRow idx r).reb (projectRow idx r).ast
        (projectRow idx r).stl (projectRow idx r).blk (projectRow idx r).tov :=
    fun idx r => rfl
  rw [h1, h1, hpts, hreb, hast, hstl, hblk, htov]

/-- Witness for C8: two rows with `gp = 1` and `gp = 2` and identical
(zero) totals get identical `ept`. -/
theorem c8_ept_independent_of_gp_witness :
    (projectRow (fun s => if s = "GP" then some 0 else none) [Val.num 1]).gp = 1 ∧
    (projectRow (fun s => if s = "GP" then some 0 else none) [Val.num 2]).gp = 2 ∧
    (projectRow (fun s => if s = "GP" then some 0 else none) [Val.num 1]).ept =
      (projectRow (fun s => if s = "GP" then some 0 else none) [Val.num 2]).ept :=
  ⟨rfl, rfl,
   c8_ept_independent_of_gp (fun s => if s = "GP" then some 0 else none)
     (fun s => if s = "GP" then some 0 else none)
     [Val.num 1] [Val.num 2] rfl rfl rfl rfl rfl rfl⟩

/-- Claim C9: with duplicate header names, the index maps the name to its
last occurrence (the left-to-right build overwrites earlier entries), and
every row projection resolves that name through the last occurrence's
column. -/
theorem c9_duplicate_header_last_wins (headers : List String) (nm : String) (j : Nat)
    (hj : headers[j]? = some nm)
    (hlast : ∀ k, j < k → headers[k]? ≠ some nm) :
    buildIdx headers nm = some j ∧
    ∀ r : List Val, getVal (buildIdx headers) r nm = (r[j]?).getD Val.undef := by
  have hmain : buildIdx headers nm = some j := by
    induction headers using List.reverseRecOn generalizing j with
    | nil => simp at hj
    | append_singleton hs h ih =>
      rw [buildIdx_concat]
      have hjlt : j < hs.length + 1 := by
        by_contra hge
        have hnone : (hs ++ [h])[j]? = none := by
          apply List.getElem?_eq_none
          simp
          omega
        rw [hnone] at hj
        exact Option.noConfusion hj
      by_cases hnh : nm = h
      · have hlen : (hs ++ [h])[hs.length]? = some h := by
          simp
        rcases Nat.lt_succ_iff_lt_or_eq.mp hjlt with hlt | heq
        · exact absurd (hnh ▸ hlen) (hlast hs.length hlt)
        · simp [hnh, heq]
      · simp only [if_neg hnh]
        have hjlt' : j < hs.length := by
          rcases Nat.lt_succ_iff_lt_or_eq.mp hjlt with hlt | heq
          · exact hlt
          · exfalso
            subst heq
            rw [show (hs ++ [h])[hs.length]? = some h by simp] at hj
            exact hnh (Option.some.inj hj).symm
        apply ih
        · rw [List.getElem?_append, if_pos hjlt'] at hj
          exact hj
        · intro k hk hcon
          apply hlast k hk
          have hklt : k < hs.length := by
            by_contra hge
            rw [List.getElem?_eq_none (by omega)] at hcon
            exact Option.noConfusion hcon
          rw [List.getElem?_append, if_pos hklt]
          exact hcon
  exact ⟨hmain, fun r => by simp [getVal, hmain]⟩

/-- Witness for C9: in `["GP", "GP"]` the name `"GP"` resolves to
position 1, the last occurrence. -/
theorem c9_duplicate_header_last_wins_witness : buildIdx ["GP", "GP"] "GP" = some 1 :=
  (c9_duplicate_header_last_wins ["GP", "GP"] "GP" 1 rfl
    (fun k hk => by
      match k, hk with
      | (n + 2), _ => simp)).1

/-- Claim C10: the sort is stable, so records tied on `ept` keep their
source-row order: for every tied value `c`, the tied records of the
returned sequence are an initial segment of the tied records of the
projected rows in input order (hence any two tied records appear in the
output in the same relative order as their source rows). -/
theorem c10_stable_sort_ties (headers : List String) (rows : List (List Val)) (c : ℚ) :
    (rankPlayers headers rows).filter (fun p => decide (p.ept = c)) <+:
      (rows.map (projectRow (buildIdx headers))).filter (fun p => decide (p.ept = c)) := by
  have hr : rankPlayers headers rows =
      ((rows.map (projectRow (buildIdx headers))).mergeSort eptDesc).take 25 := rfl
  rw [hr]
  apply stable_take_filter
  apply List.pairwise_of_forall_mem_list
  intro a ha b hb
  have ha' := (List.mem_filter.mp ha).2
  have hb' := (List.mem_filter.mp hb).2
  simp only [decide_eq_true_eq] at ha' hb'
  simp [eptDesc, ha', hb']

end EliteTracker
